import Mathlib

/-
Shallow embedding of the `stream` HTTP middleware package (stream.go of the
oxy repository) and proofs about its specification claims.

The embedding translates the source faithfully:
  * `Streamer`, `New`, the option setters, `Wrap`, `checkLimit`,
    `copyRequest`, `copyHeaders`, `SizeErrHandler` and the `ServeHTTP`
    attempt loop are translated from stream.go.
  * The external collaborators (the multibuf spillable buffer, the wrapped
    handler, the predicate compiler, oxy's utils helpers) are modelled
    through their narrow contracts; each such definition carries a comment
    saying what it stands for.
  * `ServeHTTP` is modelled as a pure function producing the final client
    response together with a trace of observable events (handler
    invocations, body reads, buffer closes, the delivered response).  Go's
    `defer` statements are modelled exactly: deferred closes accumulate and
    run, in LIFO order, only when the function returns.
  * The attempt loop is given as structural recursion on a fuel argument;
    `serveHTTP` supplies fuel `DefaultMaxRetryAttempts + 1`, and the
    lemma `serveHTTP_no_fuelOut` proves the fuel is never exhausted (the
    source's own retry guard terminates the loop first), so the fuel is
    not load-bearing.
-/

namespace OxyStream

/-- Constant from stream.go line 49: store up to 1MB in RAM. -/
def DefaultMemBodyBytes : Int := 1048576

/-- Constant from stream.go line 51: no limit by default. -/
def DefaultMaxBodyBytes : Int := -1

/-- Constant from stream.go line 53: maximum retry attempts. -/
def DefaultMaxRetryAttempts : Nat := 10

/-- Go's `http.Header` is a multimap from field names to lists of values;
modelled as an association list. -/
abbrev Headers := List (String × List String)

/-- Go's `http.Header.Add`: append `v` to the value list of key `k`,
creating the entry if absent. -/
def hAdd : Headers → String → String → Headers
  | [], k, v => [(k, [v])]
  | (k0, vs) :: rest, k, v =>
      if k0 = k then (k0, vs ++ [v]) :: rest else (k0, vs) :: hAdd rest k v

/-- Add every value of `vs` under key `k` (the inner loop of copyHeaders). -/
def hAddAll (d : Headers) (k : String) (vs : List String) : Headers :=
  vs.foldl (fun d2 v => hAdd d2 k v) d

/-- Translated from stream.go lines 318-324: `copyHeaders(dst, src)` adds
every key/value pair of `src` into `dst`. -/
def copyHeaders (dst src : Headers) : Headers :=
  src.foldl (fun d kv => hAddAll d kv.1 kv.2) dst

/-- Modelled from the spec: `utils.CopyHeaders` (oxy's utils package, not
under src/) deep-copies headers ("headers — deep-copied"); it has the same
add-every-pair semantics as the local `copyHeaders`. -/
def CopyHeaders (dst src : Headers) : Headers := copyHeaders dst src

/-- The parts of Go's `*http.Request` that stream.go reads or writes:
method, URL, header, ContentLength, TransferEncoding and Body.  For the
inbound request, `body` is the byte stream the host server hands over; for
a reframed outbound request it is the buffered content the multibuf
delivers. -/
structure Request where
  method : String
  url : String
  header : Headers
  contentLength : Int
  transferEncoding : List String
  body : List Nat
  deriving DecidableEq

/-- What ends up on the real `http.ResponseWriter`: the status code passed
to `WriteHeader`, the header map, and the body bytes written. -/
structure ClientResponse where
  status : Int
  headers : Headers
  body : List Nat
  deriving DecidableEq

/-- Observable outcome of one invocation of the opaque wrapped handler on
the `bufferWriter` surface: the header map it left behind (each attempt
starts from a fresh `make(http.Header)`), the final value of
`bufferWriter.code` (0 when `WriteHeader` was never called, otherwise the
last code written, exactly as the Go `int` field behaves), the bytes it
wrote into the capture buffer, and how many bytes of the request body it
consumed. -/
structure HandlerResp where
  headers : Headers
  code : Int
  body : List Nat
  readBytes : Nat
  deriving DecidableEq

/-- The wrapped `http.Handler` is an opaque callable; it may behave
differently on different attempts, so it is a function of the attempt
number and the request envelope it is given. -/
def Handler := Nat → Request → HandlerResp

/-- Modelled from the spec: `utils.Logger` (oxy's utils package, not under
src/); a simple collaborator with a null default, carried only so that the
configuration surface is complete. -/
inductive LoggerT where
  | nullLogger
  | custom (id : Nat)
  deriving DecidableEq

/-- Error kinds reaching the error-handling seam: multibuf's
`MaxSizeReachedError` (carrying the max) and everything else. -/
inductive Err where
  | maxSizeReached (maxSize : Int)
  | other
  deriving DecidableEq

/-- The retry context of stream.go line 255: the original request, the
1-based attempt number, the observed `bufferWriter.code`, and the logger. -/
structure RContext where
  r : Request
  attempt : Nat
  responseCode : Int
  log : Option LoggerT

/-- An error handler maps the real sink's current headers and the error to
the complete HTTP response it writes. -/
def ErrHandlerT := Headers → Err → ClientResponse

/-- UTF-8 bytes of `http.StatusText(http.StatusRequestEntityTooLarge)`. -/
def reasonPhrase413 : List Nat :=
  ("Request Entity Too Large".toUTF8.toList.map (fun b => b.toNat))

/-- UTF-8 bytes of `http.StatusText(http.StatusInternalServerError)`. -/
def reasonPhrase500 : List Nat :=
  ("Internal Server Error".toUTF8.toList.map (fun b => b.toNat))

/-- Modelled from the spec: `utils.DefaultHandler` (oxy's utils package,
not under src/) is the generic default mapping, "status 500 class", for
every error kind not specially recognised. -/
def DefaultHandler : ErrHandlerT := fun wH _ => ⟨500, wH, reasonPhrase500⟩

/-- Translated from stream.go lines 326-336: `SizeErrHandler.ServeHTTP`
answers a `MaxSizeReachedError` with status 413 and the standard reason
phrase as body, and delegates every other error to `utils.DefaultHandler`. -/
def SizeErrHandler : ErrHandlerT := fun wH e =>
  match e with
  | Err.maxSizeReached _ => ⟨413, wH, reasonPhrase413⟩
  | Err.other => DefaultHandler wH Err.other

/-- Translated from stream.go lines 60-72: the `Streamer` struct.  The Go
fields `errHandler` and `log` are nil-able pointers until `New` fills
them, hence `Option`. -/
structure Streamer where
  maxRequestBodyBytes : Int
  memRequestBodyBytes : Int
  maxResponseBodyBytes : Int
  memResponseBodyBytes : Int
  retryPredicate : Option (RContext → Bool)
  next : Handler
  errHandler : Option ErrHandlerT
  log : Option LoggerT

/-- Translated from stream.go line 101: `type optSetter func(s *Streamer) error`. -/
def OptSetter := Streamer → Except String Streamer

/-- The struct literal at the start of `New` (stream.go lines 76-84). -/
def initStreamer (next : Handler) : Streamer :=
  { maxRequestBodyBytes := DefaultMaxBodyBytes
    memRequestBodyBytes := DefaultMemBodyBytes
    maxResponseBodyBytes := DefaultMaxBodyBytes
    memResponseBodyBytes := DefaultMemBodyBytes
    retryPredicate := none
    next := next
    errHandler := none
    log := none }

/-- The setter loop of `New` (stream.go lines 85-89): apply each setter in
order, returning the first error. -/
def applySetters : List OptSetter → Streamer → Except String Streamer
  | [], s => Except.ok s
  | f :: fs, s =>
      match f s with
      | Except.error e => Except.error e
      | Except.ok s2 => applySetters fs s2

/-- The nil-checks of `New` (stream.go lines 90-96): install the default
error handler and the null logger when none was configured. -/
def fillDefaults (s : Streamer) : Streamer :=
  let s2 := if s.errHandler.isNone then { s with errHandler := some SizeErrHandler } else s
  if s2.log.isNone then { s2 with log := some LoggerT.nullLogger } else s2

/-- Translated from stream.go lines 75-99: `New` builds the streamer from
the defaults, applies the setters (propagating the first error and
returning no streamer in that case), then fills in the default error
handler and logger. -/
def New (next : Handler) (setters : List OptSetter) : Except String Streamer :=
  match applySetters setters (initStreamer next) with
  | Except.error e => Except.error e
  | Except.ok s => Except.ok (fillDefaults s)

/-- Translated from stream.go lines 114-123, with the predicate compiler
modelled from the spec: `parseExpression` (repository code not under src/)
compiles the expression text into an evaluator over the retry context; the
setter stores the compiled evaluator.  Here the already-compiled evaluator
is supplied directly; a malformed expression would fail at this point, at
configuration time. -/
def Retry (p : RContext → Bool) : OptSetter :=
  fun s => Except.ok { s with retryPredicate := some p }

/-- Translated from stream.go lines 126-131: the `Logger` setter. -/
def Logger (l : LoggerT) : OptSetter :=
  fun s => Except.ok { s with log := some l }

/-- Translated from stream.go lines 134-139: the `ErrorHandler` setter. -/
def ErrorHandler (h : ErrHandlerT) : OptSetter :=
  fun s => Except.ok { s with errHandler := some h }

/-- Translated from stream.go lines 142-150: reject negative maxima. -/
def MaxRequestBodyBytes (m : Int) : OptSetter := fun s =>
  if m < 0 then Except.error ("max bytes should be >= 0 got " ++ toString m)
  else Except.ok { s with maxRequestBodyBytes := m }

/-- Translated from stream.go lines 154-162: reject negative thresholds. -/
def MemRequestBodyBytes (m : Int) : OptSetter := fun s =>
  if m < 0 then Except.error ("mem bytes should be >= 0 got " ++ toString m)
  else Except.ok { s with memRequestBodyBytes := m }

/-- Translated from stream.go lines 165-173: reject negative maxima. -/
def MaxResponseBodyBytes (m : Int) : OptSetter := fun s =>
  if m < 0 then Except.error ("max bytes should be >= 0 got " ++ toString m)
  else Except.ok { s with maxResponseBodyBytes := m }

/-- Translated from stream.go lines 177-185: reject negative thresholds. -/
def MemResponseBodyBytes (m : Int) : OptSetter := fun s =>
  if m < 0 then Except.error ("mem bytes should be >= 0 got " ++ toString m)
  else Except.ok { s with memResponseBodyBytes := m }

/-- Translated from stream.go lines 188-191: `Wrap` replaces the `next`
handler field and returns a nil error.  Go mutates the receiver in place;
the pure embedding returns the updated streamer together with the error
value. -/
def Wrap (s : Streamer) (next : Handler) : Streamer × Option String :=
  ({ s with next := next }, none)

/-- True exactly on the error constructor of `Except`. -/
def isErr {α : Type} (x : Except String α) : Bool :=
  match x with
  | Except.error _ => true
  | Except.ok _ => false

/-- Translated from stream.go lines 285-293: `checkLimit` rejects, with
multibuf's `MaxSizeReachedError`, a request whose declared content length
exceeds a positive configured maximum. -/
def checkLimit (s : Streamer) (req : Request) : Option Err :=
  if s.maxRequestBodyBytes ≤ 0 then none
  else if req.contentLength > s.maxRequestBodyBytes then
    some (Err.maxSizeReached s.maxRequestBodyBytes)
  else none

/-- Translated from stream.go lines 273-283: `copyRequest` shallow-copies
the request, deep-copies URL and headers into fresh storage, sets
`ContentLength` to the computed body size, clears `TransferEncoding`, and
points `Body` at the shared buffer (whose full content is `content`). -/
def copyRequest (req : Request) (content : List Nat) (bodySize : Int) : Request :=
  { method := req.method
    url := req.url
    header := CopyHeaders [] req.header
    contentLength := bodySize
    transferEncoding := []
    body := content }

/-- Observable events of one `ServeHTTP` run, in program order.  The three
close events model the `defer`red `reader.Close()`, `b.Close()` and
`body.Close()` calls, which Go runs only when the function returns. -/
inductive Event where
  | readBody
  | createCapture (attempt : Nat)
  | invoke (attempt : Nat) (oreq : Request) (delivered : List Nat)
  | seekRewind (fromPos : Nat)
  | deliver (resp : ClientResponse)
  | errorOut (resp : ClientResponse)
  | closeReader (attempt : Nat)
  | closeCapture (attempt : Nat)
  | closeBody
  | fuelOut
  deriving DecidableEq

/-- True on handler-invocation events. -/
def isInvoke : Event → Bool
  | Event.invoke _ _ _ => true
  | _ => false

/-- True on the events that model a deferred `Close` call. -/
def isClose : Event → Bool
  | Event.closeReader _ => true
  | Event.closeCapture _ => true
  | Event.closeBody => true
  | _ => false

/-- True on capture-creation events. -/
def isCreateCapture : Event → Bool
  | Event.createCapture _ => true
  | _ => false

/-- True on capture-close events. -/
def isCloseCapture : Event → Bool
  | Event.closeCapture _ => true
  | _ => false

/-- True on the delivery event. -/
def isDeliver : Event → Bool
  | Event.deliver _ => true
  | _ => false

/-- Number of handler invocations recorded in a trace. -/
def countInvokes (t : List Event) : Nat := t.countP isInvoke

/-- Modelled from the contracts of the external collaborators: which
fallible external operations succeed during one run.  `newErr` is the
result of `multibuf.New` (it consumes the request stream and can fail,
in particular with `MaxSizeReachedError` when the actual body exceeds the
configured maximum); `sizeOk` is `body.Size()`; `writerOk`, `readerOk`
and `seekOk` are per-attempt results of `multibuf.NewWriterOnce`,
`writer.Reader()` and `body.Seek(0,0)`. -/
structure Env where
  newErr : Option Err
  sizeOk : Bool
  writerOk : Nat → Bool
  readerOk : Nat → Bool
  seekOk : Nat → Bool

/-- Sentinel result of the unreachable out-of-fuel branch (status -1 is
not producible by any real branch; `serveHTTP_no_fuelOut` proves the
branch is never taken). -/
def fuelOutResp : ClientResponse := ⟨-1, [], []⟩

/-- The error-handling seam `s.errHandler.ServeHTTP(w, req, err)`.  `New`
guarantees the field is non-nil; the `getD` default is the same package
default (stream.go line 56) that `New` would have installed, so it is
never what a `New`-constructed streamer uses it for. -/
def mkErrResp (s : Streamer) (wH : Headers) (e : Err) : ClientResponse :=
  (s.errHandler.getD SizeErrHandler) wH e

/-- The finalize branch of stream.go lines 256-258: copy the captured
headers onto the real sink, write the captured status, stream the captured
body. -/
def deliverResp (wH : Headers) (hr : HandlerResp) : ClientResponse :=
  ⟨hr.code, copyHeaders wH hr.headers, hr.body⟩

/-- The retry decision of stream.go lines 254-255: finalize when no
predicate is configured, or the attempt number exceeds
`DefaultMaxRetryAttempts`, or the predicate rejects the attempt. -/
def finalizeDecision (s : Streamer) (req : Request) (attempt : Nat) (code : Int) : Bool :=
  match s.retryPredicate with
  | none => true
  | some p =>
      decide (DefaultMaxRetryAttempts < attempt) ||
        !(p { r := req, attempt := attempt, responseCode := code, log := s.log })

/-- The attempt loop of stream.go lines 226-270.  Parameters: `content` is
the full buffered body, `totalSize` the size computed once before the
loop, `attempt` the 1-based attempt counter, `pos` the buffer's read
position at dispatch time (0 initially; reset to 0 by the successful
`Seek(0,0)` before every redispatch, after the handler consumed
`readBytes` of it), `oreq` the current request envelope, and `defers` the
deferred close calls accumulated so far (most recently deferred first),
which every return appends to the trace.  The fuel argument only makes the
recursion structural; `serveHTTP_no_fuelOut` shows the source's own guard
always returns first. -/
def serveLoop (s : Streamer) (env : Env) (req : Request) (wH : Headers)
    (content : List Nat) (totalSize : Int) :
    Nat → Nat → Nat → Request → List Event → List Event × ClientResponse
  | 0, _, _, _, defers => (Event.fuelOut :: defers, fuelOutResp)
  | fuel + 1, attempt, pos, oreq, defers =>
      if env.writerOk attempt = false then
        (Event.errorOut (mkErrResp s wH Err.other) :: defers, mkErrResp s wH Err.other)
      else if env.readerOk attempt = false then
        (Event.createCapture attempt :: Event.invoke attempt oreq (content.drop pos) ::
            Event.errorOut (mkErrResp s wH Err.other) ::
            Event.closeCapture attempt :: defers,
          mkErrResp s wH Err.other)
      else if finalizeDecision s req attempt (s.next attempt oreq).code then
        (Event.createCapture attempt :: Event.invoke attempt oreq (content.drop pos) ::
            Event.deliver (deliverResp wH (s.next attempt oreq)) ::
            Event.closeReader attempt :: Event.closeCapture attempt :: defers,
          deliverResp wH (s.next attempt oreq))
      else if env.seekOk attempt = false then
        (Event.createCapture attempt :: Event.invoke attempt oreq (content.drop pos) ::
            Event.errorOut (mkErrResp s wH Err.other) ::
            Event.closeReader attempt :: Event.closeCapture attempt :: defers,
          mkErrResp s wH Err.other)
      else
        let rest := serveLoop s env req wH content totalSize fuel (attempt + 1) 0
          (copyRequest req content totalSize)
          (Event.closeReader attempt :: Event.closeCapture attempt :: defers)
        (Event.createCapture attempt :: Event.invoke attempt oreq (content.drop pos) ::
            Event.seekRewind (min (pos + (s.next attempt oreq).readBytes) content.length) ::
            rest.1,
          rest.2)

/-- Translated from stream.go lines 193-271: `ServeHTTP`.  Check the
declared-length limit before reading anything; buffer the body through
multibuf (consuming the stream); compute the total size; build the first
request envelope; run the attempt loop.  `wH` is the real response
writer's header map on entry. -/
def serveHTTP (s : Streamer) (env : Env) (req : Request) (wH : Headers) :
    List Event × ClientResponse :=
  match checkLimit s req with
  | some e => ([Event.errorOut (mkErrResp s wH e)], mkErrResp s wH e)
  | none =>
      match env.newErr with
      | some e => ([Event.readBody, Event.errorOut (mkErrResp s wH e)], mkErrResp s wH e)
      | none =>
          if env.sizeOk = false then
            ([Event.readBody, Event.errorOut (mkErrResp s wH Err.other), Event.closeBody],
              mkErrResp s wH Err.other)
          else
            let r := serveLoop s env req wH req.body (req.body.length : Int)
              (DefaultMaxRetryAttempts + 1) 1 0
              (copyRequest req req.body (req.body.length : Int)) [Event.closeBody]
            (Event.readBody :: r.1, r.2)

/- Concrete fixtures used by the concrete-run theorems and witnesses. -/

/-- An environment in which every external collaborator succeeds. -/
def env0 : Env := ⟨none, true, fun _ => true, fun _ => true, fun _ => true⟩

/-- A minimal inbound request. -/
def req0 : Request := ⟨"GET", "/", [], 0, [], []⟩

/-- A chunked inbound request with unknown declared length and body bytes 7, 8. -/
def req2 : Request := ⟨"PUT", "/w", [], -1, ["chunked"], [7, 8]⟩

/-- An oversized inbound request: declared length 10, body present. -/
def reqW3 : Request := ⟨"POST", "/u", [], 10, [], [1, 2, 3]⟩

/-- A handler that answers 502 on every invocation. -/
def h502 : Handler := fun _ _ => ⟨[], 502, [], 0⟩

/-- A handler that writes one body byte but never calls WriteHeader, and
consumes one byte of the request body. -/
def h0code : Handler := fun _ _ => ⟨[], 0, [5], 1⟩

/-- A handler that sets two header fields, status 201 and one body byte. -/
def h7 : Handler := fun _ _ => ⟨[("X-A", ["1"]), ("X-B", ["2", "3"])], 201, [9], 0⟩

/-- A retry predicate that always asks for a replay. -/
def predTrue : RContext → Bool := fun _ => true

/-- Modelled from the spec: the compiled form of the retry expression
`Attempts() <= 2 && ResponseCode() == 502` under the documented accessor
semantics (1-based attempt count, observed status of the just-completed
attempt). -/
def pred502 : RContext → Bool :=
  fun c => decide (c.attempt ≤ 2) && decide (c.responseCode = 502)

/-- Modelled from the spec: the compiled form of `ResponseCode() == 200`. -/
def pred200 : RContext → Bool := fun c => decide (c.responseCode = 200)

/-- Streamer with an always-true retry predicate around `h502`. -/
def s1 : Streamer :=
  match New h502 [Retry predTrue] with
  | Except.ok s => s
  | Except.error _ => initStreamer h502

/-- Streamer with the `Attempts() <= 2 && ResponseCode() == 502` predicate
around `h502`. -/
def s5 : Streamer :=
  match New h502 [Retry pred502] with
  | Except.ok s => s
  | Except.error _ => initStreamer h502

/-- Streamer around the no-WriteHeader handler, no predicate. -/
def s8 : Streamer :=
  match New h0code [] with
  | Except.ok s => s
  | Except.error _ => initStreamer h0code

/-- Streamer around the no-WriteHeader handler with the
`ResponseCode() == 200` predicate. -/
def s8p : Streamer :=
  match New h0code [Retry pred200] with
  | Except.ok s => s
  | Except.error _ => initStreamer h0code

/-- Streamer with a 5-byte request limit around `h502`. -/
def sW3 : Streamer :=
  match New h502 [MaxRequestBodyBytes 5] with
  | Except.ok s => s
  | Except.error _ => initStreamer h502

/-- Streamer around the header-setting handler, no predicate. -/
def s7 : Streamer :=
  match New h7 [] with
  | Except.ok s => s
  | Except.error _ => initStreamer h7

/-- Plain streamer around `h502`, no predicate. -/
def s2w : Streamer :=
  match New h502 [] with
  | Except.ok s => s
  | Except.error _ => initStreamer h502

/-- The response `s7`'s run delivers. -/
def respW7 : ClientResponse := ⟨201, [("X-A", ["1"]), ("X-B", ["2", "3"])], [9]⟩

/- Header-map lemmas: `copyHeaders` into an empty destination reproduces a
well-formed source map verbatim. -/

theorem hAdd_cons_ne {k0 k : String} (vs0 : List String) (d : Headers) (v : String)
    (h : k0 ≠ k) : hAdd ((k0, vs0) :: d) k v = (k0, vs0) :: hAdd d k v := by
  simp [hAdd, h]

theorem hAddAll_cons_ne {k0 k : String} (vs0 : List String) (h : k0 ≠ k) :
    ∀ (vs : List String) (d : Headers),
      hAddAll ((k0, vs0) :: d) k vs = (k0, vs0) :: hAddAll d k vs := by
  intro vs
  induction vs with
  | nil => intro d; rfl
  | cons v t ih =>
      intro d
      show hAddAll (hAdd ((k0, vs0) :: d) k v) k t = (k0, vs0) :: hAddAll (hAdd d k v) k t
      rw [hAdd_cons_ne vs0 d v h]
      exact ih (hAdd d k v)

theorem copyHeaders_cons_notmem {k0 : String} (vs0 : List String) :
    ∀ (src : Headers) (d : Headers), k0 ∉ src.map Prod.fst →
      copyHeaders ((k0, vs0) :: d) src = (k0, vs0) :: copyHeaders d src := by
  intro src
  induction src with
  | nil => intro d _; rfl
  | cons kv rest ih =>
      intro d hk
      have hne : k0 ≠ kv.1 := by
        intro he
        exact hk (by simp [he])
      have hk2 : k0 ∉ rest.map Prod.fst := by
        intro he
        exact hk (by simp [he])
      show copyHeaders (hAddAll ((k0, vs0) :: d) kv.1 kv.2) rest =
        (k0, vs0) :: copyHeaders (hAddAll d kv.1 kv.2) rest
      rw [hAddAll_cons_ne vs0 hne kv.2 d]
      exact ih (hAddAll d kv.1 kv.2) hk2

theorem hAddAll_single (k : String) :
    ∀ (vs acc : List String), hAddAll [(k, acc)] k vs = [(k, acc ++ vs)] := by
  intro vs
  induction vs with
  | nil => intro acc; simp [hAddAll]
  | cons v t ih =>
      intro acc
      show hAddAll (hAdd [(k, acc)] k v) k t = [(k, acc ++ (v :: t))]
      have h1 : hAdd [(k, acc)] k v = [(k, acc ++ [v])] := by simp [hAdd]
      rw [h1, ih (acc ++ [v])]
      simp

theorem hAddAll_nil_ne (k : String) (vs : List String) (h : vs ≠ []) :
    hAddAll [] k vs = [(k, vs)] := by
  cases vs with
  | nil => exact absurd rfl h
  | cons v t =>
      show hAddAll (hAdd [] k v) k t = [(k, v :: t)]
      have h1 : hAdd [] k v = [(k, [v])] := rfl
      rw [h1, hAddAll_single k t [v]]
      rfl

theorem copyHeaders_nil_id :
    ∀ (src : Headers), (src.map Prod.fst).Nodup → (∀ p ∈ src, p.2 ≠ []) →
      copyHeaders [] src = src := by
  intro src
  induction src with
  | nil => intro _ _; rfl
  | cons kv rest ih =>
      intro hnd hne
      have hk : kv.1 ∉ rest.map Prod.fst := by
        simp only [List.map_cons, List.nodup_cons] at hnd
        exact hnd.1
      have hnd2 : (rest.map Prod.fst).Nodup := by
        simp only [List.map_cons, List.nodup_cons] at hnd
        exact hnd.2
      have hv : kv.2 ≠ [] := hne kv (by simp)
      show copyHeaders (hAddAll [] kv.1 kv.2) rest = kv :: rest
      rw [hAddAll_nil_ne kv.1 kv.2 hv]
      rw [copyHeaders_cons_notmem kv.2 rest [] hk]
      rw [ih hnd2 (fun p hp => hne p (by simp [hp]))]

/- Trace helper lemmas. -/

theorem isInvoke_false_of_isClose {e : Event} (h : isClose e = true) :
    isInvoke e = false := by
  cases e <;> simp [isClose, isInvoke] at h ⊢

theorem not_mem_invoke_of_closes {l : List Event} (h : ∀ e ∈ l, isClose e = true)
    (b : Nat) (o : Request) (d : List Nat) : Event.invoke b o d ∉ l := by
  intro hm
  have h2 := h _ hm
  simp [isClose] at h2

theorem not_mem_deliver_of_closes {l : List Event} (h : ∀ e ∈ l, isClose e = true)
    (r : ClientResponse) : Event.deliver r ∉ l := by
  intro hm
  have h2 := h _ hm
  simp [isClose] at h2

theorem not_mem_fuelOut_of_closes {l : List Event} (h : ∀ e ∈ l, isClose e = true) :
    Event.fuelOut ∉ l := by
  intro hm
  have h2 := h _ hm
  simp [isClose] at h2

theorem countInvokes_eq_zero_of_closes {l : List Event} (h : ∀ e ∈ l, isClose e = true) :
    countInvokes l = 0 := by
  simp only [countInvokes, List.countP_eq_zero]
  intro e he
  simp [isInvoke_false_of_isClose (h e he)]

theorem countInvokes_cons (e : Event) (l : List Event) :
    countInvokes (e :: l) = countInvokes l + (if isInvoke e = true then 1 else 0) := by
  simp only [countInvokes, List.countP_cons]

theorem closes_cons2 {l : List Event} (h : ∀ e ∈ l, isClose e = true) (a : Nat) :
    ∀ e ∈ Event.closeReader a :: Event.closeCapture a :: l, isClose e = true := by
  intro e he
  rcases List.mem_cons.mp he with rfl | he2
  · rfl
  · rcases List.mem_cons.mp he2 with rfl | he3
    · rfl
    · exact h e he3

theorem closes_cons1 {l : List Event} (h : ∀ e ∈ l, isClose e = true) (a : Nat) :
    ∀ e ∈ Event.closeCapture a :: l, isClose e = true := by
  intro e he
  rcases List.mem_cons.mp he with rfl | he2
  · rfl
  · exact h e he2

/-- The retry decision only refuses to finalize while the attempt number is
within `DefaultMaxRetryAttempts` (stream.go line 254). -/
theorem attempt_le_of_finalize_false {s : Streamer} {req : Request} {attempt : Nat}
    {code : Int} (h : finalizeDecision s req attempt code = false) :
    attempt ≤ DefaultMaxRetryAttempts := by
  unfold finalizeDecision at h
  cases hp : s.retryPredicate with
  | none => rw [hp] at h; simp at h
  | some p =>
      rw [hp] at h
      simp only [Bool.or_eq_false_iff, decide_eq_false_iff_not] at h
      exact Nat.le_of_not_lt h.1

/- Branch equations for `serveLoop`, so later inductions can rewrite one
step of the loop at a time. -/

theorem serveLoop_writer_fail (s : Streamer) (env : Env) (req : Request) (wH : Headers)
    (content : List Nat) (totalSize : Int) (fuel attempt pos : Nat) (oreq : Request)
    (defers : List Event) (h1 : env.writerOk attempt = false) :
    serveLoop s env req wH content totalSize (fuel + 1) attempt pos oreq defers =
      (Event.errorOut (mkErrResp s wH Err.other) :: defers, mkErrResp s wH Err.other) := by
  simp [serveLoop, h1]

theorem serveLoop_reader_fail (s : Streamer) (env : Env) (req : Request) (wH : Headers)
    (content : List Nat) (totalSize : Int) (fuel attempt pos : Nat) (oreq : Request)
    (defers : List Event) (h1 : env.writerOk attempt = true)
    (h2 : env.readerOk attempt = false) :
    serveLoop s env req wH content totalSize (fuel + 1) attempt pos oreq defers =
      (Event.createCapture attempt :: Event.invoke attempt oreq (content.drop pos) ::
          Event.errorOut (mkErrResp s wH Err.other) ::
          Event.closeCapture attempt :: defers,
        mkErrResp s wH Err.other) := by
  simp [serveLoop, h1, h2]

theorem serveLoop_finalize (s : Streamer) (env : Env) (req : Request) (wH : Headers)
    (content : List Nat) (totalSize : Int) (fuel attempt pos : Nat) (oreq : Request)
    (defers : List Event) (h1 : env.writerOk attempt = true)
    (h2 : env.readerOk attempt = true)
    (h3 : finalizeDecision s req attempt (s.next attempt oreq).code = true) :
    serveLoop s env req wH content totalSize (fuel + 1) attempt pos oreq defers =
      (Event.createCapture attempt :: Event.invoke attempt oreq (content.drop pos) ::
          Event.deliver (deliverResp wH (s.next attempt oreq)) ::
          Event.closeReader attempt :: Event.closeCapture attempt :: defers,
        deliverResp wH (s.next attempt oreq)) := by
  simp [serveLoop, h1, h2, h3]

theorem serveLoop_seek_fail (s : Streamer) (env : Env) (req : Request) (wH : Headers)
    (content : List Nat) (totalSize : Int) (fuel attempt pos : Nat) (oreq : Request)
    (defers : List Event) (h1 : env.writerOk attempt = true)
    (h2 : env.readerOk attempt = true)
    (h3 : finalizeDecision s req attempt (s.next attempt oreq).code = false)
    (h4 : env.seekOk attempt = false) :
    serveLoop s env req wH content totalSize (fuel + 1) attempt pos oreq defers =
      (Event.createCapture attempt :: Event.invoke attempt oreq (content.drop pos) ::
          Event.errorOut (mkErrResp s wH Err.other) ::
          Event.closeReader attempt :: Event.closeCapture attempt :: defers,
        mkErrResp s wH Err.other) := by
  simp [serveLoop, h1, h2, h3, h4]

theorem serveLoop_retry (s : Streamer) (env : Env) (req : Request) (wH : Headers)
    (content : List Nat) (totalSize : Int) (fuel attempt pos : Nat) (oreq : Request)
    (defers : List Event) (h1 : env.writerOk attempt = true)
    (h2 : env.readerOk attempt = true)
    (h3 : finalizeDecision s req attempt (s.next attempt oreq).code = false)
    (h4 : env.seekOk attempt = true) :
    serveLoop s env req wH content totalSize (fuel + 1) attempt pos oreq defers =
      (Event.createCapture attempt :: Event.invoke attempt oreq (content.drop pos) ::
          Event.seekRewind (min (pos + (s.next attempt oreq).readBytes) content.length) ::
          (serveLoop s env req wH content totalSize fuel (attempt + 1) 0
            (copyRequest req content totalSize)
            (Event.closeReader attempt :: Event.closeCapture attempt :: defers)).1,
        (serveLoop s env req wH content totalSize fuel (attempt + 1) 0
          (copyRequest req content totalSize)
          (Event.closeReader attempt :: Event.closeCapture attempt :: defers)).2) := by
  simp [serveLoop, h1, h2, h3, h4]

/-- The attempt loop invokes the handler at most once per unit of fuel. -/
theorem serveLoop_countInvokes_le (s : Streamer) (env : Env) (req : Request) (wH : Headers)
    (content : List Nat) (totalSize : Int) :
    ∀ (fuel attempt pos : Nat) (oreq : Request) (defers : List Event),
      (∀ e ∈ defers, isClose e = true) →
      countInvokes
        (serveLoop s env req wH content totalSize fuel attempt pos oreq defers).1 ≤ fuel := by
  intro fuel
  induction fuel with
  | zero =>
      intro attempt pos oreq defers hd
      have h0 := countInvokes_eq_zero_of_closes hd
      simp only [serveLoop, countInvokes_cons, h0]
      simp [isInvoke]
  | succ f ih =>
      intro attempt pos oreq defers hd
      have h0 := countInvokes_eq_zero_of_closes hd
      cases h1 : env.writerOk attempt with
      | false =>
          rw [serveLoop_writer_fail s env req wH content totalSize f attempt pos oreq defers h1]
          simp only [countInvokes_cons, h0]
          simp [isInvoke]
      | true =>
          cases h2 : env.readerOk attempt with
          | false =>
              rw [serveLoop_reader_fail s env req wH content totalSize f attempt pos oreq
                defers h1 h2]
              simp only [countInvokes_cons, h0]
              simp [isInvoke]
          | true =>
              cases h3 : finalizeDecision s req attempt (s.next attempt oreq).code with
              | true =>
                  rw [serveLoop_finalize s env req wH content totalSize f attempt pos oreq
                    defers h1 h2 h3]
                  simp only [countInvokes_cons, h0]
                  simp [isInvoke]
              | false =>
                  cases h4 : env.seekOk attempt with
                  | false =>
                      rw [serveLoop_seek_fail s env req wH content totalSize f attempt pos oreq
                        defers h1 h2 h3 h4]
                      simp only [countInvokes_cons, h0]
                      simp [isInvoke]
                  | true =>
                      rw [serveLoop_retry s env req wH content totalSize f attempt pos oreq
                        defers h1 h2 h3 h4]
                      have ihx := ih (attempt + 1) 0 (copyRequest req content totalSize)
                        (Event.closeReader attempt :: Event.closeCapture attempt :: defers)
                        (closes_cons2 hd attempt)
                      simp only [countInvokes_cons]
                      simp [isInvoke]
                      omega

/-- The loop's fuel is never exhausted: the source's retry guard
(`attempt > DefaultMaxRetryAttempts` finalizes) returns first. -/
theorem serveLoop_no_fuelOut (s : Streamer) (env : Env) (req : Request) (wH : Headers)
    (content : List Nat) (totalSize : Int) :
    ∀ (fuel attempt pos : Nat) (oreq : Request) (defers : List Event),
      (∀ e ∈ defers, isClose e = true) →
      DefaultMaxRetryAttempts + 2 ≤ fuel + attempt →
      attempt ≤ DefaultMaxRetryAttempts + 1 →
      Event.fuelOut ∉
        (serveLoop s env req wH content totalSize fuel attempt pos oreq defers).1 := by
  intro fuel
  induction fuel with
  | zero =>
      intro attempt pos oreq defers hd hsum hat
      omega
  | succ f ih =>
      intro attempt pos oreq defers hd hsum hat
      have hdef := not_mem_fuelOut_of_closes hd
      cases h1 : env.writerOk attempt with
      | false =>
          rw [serveLoop_writer_fail s env req wH content totalSize f attempt pos oreq defers h1]
          intro hm
          simp [List.mem_cons] at hm
          exact hdef hm
      | true =>
          cases h2 : env.readerOk attempt with
          | false =>
              rw [serveLoop_reader_fail s env req wH content totalSize f attempt pos oreq
                defers h1 h2]
              intro hm
              simp [List.mem_cons] at hm
              exact hdef hm
          | true =>
              cases h3 : finalizeDecision s req attempt (s.next attempt oreq).code with
              | true =>
                  rw [serveLoop_finalize s env req wH content totalSize f attempt pos oreq
                    defers h1 h2 h3]
                  intro hm
                  simp [List.mem_cons] at hm
                  exact hdef hm
              | false =>
                  cases h4 : env.seekOk attempt with
                  | false =>
                      rw [serveLoop_seek_fail s env req wH content totalSize f attempt pos oreq
                        defers h1 h2 h3 h4]
                      intro hm
                      simp [List.mem_cons] at hm
                      exact hdef hm
                  | true =>
                      rw [serveLoop_retry s env req wH content totalSize f attempt pos oreq
                        defers h1 h2 h3 h4]
                      intro hm
                      simp only [List.mem_cons] at hm
                      rcases hm with h | h | h | h
                      · exact absurd h (by simp)
                      · exact absurd h (by simp)
                      · exact absurd h (by simp)
                      · have hle := attempt_le_of_finalize_false h3
                        exact ih (attempt + 1) 0 (copyRequest req content totalSize)
                          (Event.closeReader attempt :: Event.closeCapture attempt :: defers)
                          (closes_cons2 hd attempt) (by omega) (by omega) h

/-- Every invocation recorded by the loop carries an attempt number at
least the loop's starting attempt number. -/
theorem serveLoop_invoke_ge (s : Streamer) (env : Env) (req : Request) (wH : Headers)
    (content : List Nat) (totalSize : Int) :
    ∀ (fuel attempt pos : Nat) (oreq : Request) (defers : List Event),
      (∀ e ∈ defers, isClose e = true) →
      ∀ (b : Nat) (o : Request) (d : List Nat),
        Event.invoke b o d ∈
          (serveLoop s env req wH content totalSize fuel attempt pos oreq defers).1 →
        attempt ≤ b := by
  intro fuel
  induction fuel with
  | zero =>
      intro attempt pos oreq defers hd b o d hm
      simp only [serveLoop] at hm
      simp [List.mem_cons] at hm
      exact absurd hm (not_mem_invoke_of_closes hd b o d)
  | succ f ih =>
      intro attempt pos oreq defers hd b o d hm
      cases h1 : env.writerOk attempt with
      | false =>
          rw [serveLoop_writer_fail s env req wH content totalSize f attempt pos oreq
            defers h1] at hm
          simp [List.mem_cons] at hm
          exact absurd hm (not_mem_invoke_of_closes hd b o d)
      | true =>
          cases h2 : env.readerOk attempt with
          | false =>
              rw [serveLoop_reader_fail s env req wH content totalSize f attempt pos oreq
                defers h1 h2] at hm
              simp [List.mem_cons] at hm
              rcases hm with ⟨rfl, -, -⟩ | hm
              · exact le_rfl
              · exact absurd hm (not_mem_invoke_of_closes hd b o d)
          | true =>
              cases h3 : finalizeDecision s req attempt (s.next attempt oreq).code with
              | true =>
                  rw [serveLoop_finalize s env req wH content totalSize f attempt pos oreq
                    defers h1 h2 h3] at hm
                  simp [List.mem_cons] at hm
                  rcases hm with ⟨rfl, -, -⟩ | hm
                  · exact le_rfl
                  · exact absurd hm (not_mem_invoke_of_closes hd b o d)
              | false =>
                  cases h4 : env.seekOk attempt with
                  | false =>
                      rw [serveLoop_seek_fail s env req wH content totalSize f attempt pos oreq
                        defers h1 h2 h3 h4] at hm
                      simp [List.mem_cons] at hm
                      rcases hm with ⟨rfl, -, -⟩ | hm
                      · exact le_rfl
                      · exact absurd hm (not_mem_invoke_of_closes hd b o d)
                  | true =>
                      rw [serveLoop_retry s env req wH content totalSize f attempt pos oreq
                        defers h1 h2 h3 h4] at hm
                      simp only [List.mem_cons] at hm
                      rcases hm with h | h | h | h
                      · exact absurd h (by simp)
                      · obtain ⟨rfl, -, -⟩ := by simpa using h
                        exact le_rfl
                      · exact absurd h (by simp)
                      · have := ih (attempt + 1) 0 (copyRequest req content totalSize)
                          (Event.closeReader attempt :: Event.closeCapture attempt :: defers)
                          (closes_cons2 hd attempt) b o d h
                        omega

/-- Envelope invariant: starting from a dispatch position of 0 and an
envelope built by `copyRequest` over the buffered content, every recorded
invocation receives an envelope whose body is the full buffered content,
whose content length is the precomputed total size, whose transfer
encoding is cleared, and is delivered exactly the full buffered bytes. -/
theorem serveLoop_invoke_envelope (s : Streamer) (env : Env) (req : Request) (wH : Headers)
    (content : List Nat) (totalSize : Int) :
    ∀ (fuel attempt : Nat) (oreq : Request) (defers : List Event),
      (∀ e ∈ defers, isClose e = true) →
      oreq.body = content → oreq.contentLength = totalSize →
      oreq.transferEncoding = [] →
      ∀ (b : Nat) (o : Request) (d : List Nat),
        Event.invoke b o d ∈
          (serveLoop s env req wH content totalSize fuel attempt 0 oreq defers).1 →
        o.body = content ∧ o.contentLength = totalSize ∧
          o.transferEncoding = [] ∧ d = content := by
  intro fuel
  induction fuel with
  | zero =>
      intro attempt oreq defers hd hb hcl hte b o d hm
      simp only [serveLoop] at hm
      simp [List.mem_cons] at hm
      exact absurd hm (not_mem_invoke_of_closes hd b o d)
  | succ f ih =>
      intro attempt oreq defers hd hb hcl hte b o d hm
      cases h1 : env.writerOk attempt with
      | false =>
          rw [serveLoop_writer_fail s env req wH content totalSize f attempt 0 oreq
            defers h1] at hm
          simp [List.mem_cons] at hm
          exact absurd hm (not_mem_invoke_of_closes hd b o d)
      | true =>
          cases h2 : env.readerOk attempt with
          | false =>
              rw [serveLoop_reader_fail s env req wH content totalSize f attempt 0 oreq
                defers h1 h2] at hm
              simp [List.mem_cons] at hm
              rcases hm with ⟨-, rfl, rfl⟩ | hm
              · exact ⟨hb, hcl, hte, rfl⟩
              · exact absurd hm (not_mem_invoke_of_closes hd b o d)
          | true =>
              cases h3 : finalizeDecision s req attempt (s.next attempt oreq).code with
              | true =>
                  rw [serveLoop_finalize s env req wH content totalSize f attempt 0 oreq
                    defers h1 h2 h3] at hm
                  simp [List.mem_cons] at hm
                  rcases hm with ⟨-, rfl, rfl⟩ | hm
                  · exact ⟨hb, hcl, hte, rfl⟩
                  · exact absurd hm (not_mem_invoke_of_closes hd b o d)
              | false =>
                  cases h4 : env.seekOk attempt with
                  | false =>
                      rw [serveLoop_seek_fail s env req wH content totalSize f attempt 0 oreq
                        defers h1 h2 h3 h4] at hm
                      simp [List.mem_cons] at hm
                      rcases hm with ⟨-, rfl, rfl⟩ | hm
                      · exact ⟨hb, hcl, hte, rfl⟩
                      · exact absurd hm (not_mem_invoke_of_closes hd b o d)
                  | true =>
                      rw [serveLoop_retry s env req wH content totalSize f attempt 0 oreq
                        defers h1 h2 h3 h4] at hm
                      simp only [List.mem_cons] at hm
                      rcases hm with h | h | h | h
                      · exact absurd h (by simp)
                      · obtain ⟨-, rfl, rfl⟩ := by simpa using h
                        exact ⟨hb, hcl, hte, rfl⟩
                      · exact absurd h (by simp)
                      · exact ih (attempt + 1) (copyRequest req content totalSize)
                          (Event.closeReader attempt :: Event.closeCapture attempt :: defers)
                          (closes_cons2 hd attempt) rfl rfl rfl b o d h

/-- Delivery characterization: whenever the loop records a delivered
response, that response is exactly the finalize-branch image of the
handler's output on the last recorded invocation: status
`bufferWriter.code`, headers copied from that attempt's fresh header map
onto the sink's, body the bytes captured on that attempt. -/
theorem serveLoop_deliver_char (s : Streamer) (env : Env) (req : Request) (wH : Headers)
    (content : List Nat) (totalSize : Int) :
    ∀ (fuel attempt pos : Nat) (oreq : Request) (defers : List Event),
      (∀ e ∈ defers, isClose e = true) →
      ∀ (resp : ClientResponse),
        Event.deliver resp ∈
          (serveLoop s env req wH content totalSize fuel attempt pos oreq defers).1 →
        ∃ a o d,
          Event.invoke a o d ∈
            (serveLoop s env req wH content totalSize fuel attempt pos oreq defers).1 ∧
          resp = deliverResp wH (s.next a o) ∧
          ∀ (b : Nat) (o2 : Request) (d2 : List Nat),
            Event.invoke b o2 d2 ∈
              (serveLoop s env req wH content totalSize fuel attempt pos oreq defers).1 →
            b ≤ a := by
  intro fuel
  induction fuel with
  | zero =>
      intro attempt pos oreq defers hd resp hm
      simp only [serveLoop] at hm
      simp [List.mem_cons] at hm
      exact absurd hm (not_mem_deliver_of_closes hd resp)
  | succ f ih =>
      intro attempt pos oreq defers hd resp hm
      cases h1 : env.writerOk attempt with
      | false =>
          rw [serveLoop_writer_fail s env req wH content totalSize f attempt pos oreq
            defers h1] at hm
          simp [List.mem_cons] at hm
          exact absurd hm (not_mem_deliver_of_closes hd resp)
      | true =>
          cases h2 : env.readerOk attempt with
          | false =>
              rw [serveLoop_reader_fail s env req wH content totalSize f attempt pos oreq
                defers h1 h2] at hm
              simp [List.mem_cons] at hm
              exact absurd hm (not_mem_deliver_of_closes hd resp)
          | true =>
              cases h3 : finalizeDecision s req attempt (s.next attempt oreq).code with
              | true =>
                  rw [serveLoop_finalize s env req wH content totalSize f attempt pos oreq
                    defers h1 h2 h3] at hm
                  rw [serveLoop_finalize s env req wH content totalSize f attempt pos oreq
                    defers h1 h2 h3]
                  simp only [List.mem_cons] at hm
                  rcases hm with h | h | h | h | h | h
                  · exact absurd h (by simp)
                  · exact absurd h (by simp)
                  · have hr : resp = deliverResp wH (s.next attempt oreq) := by
                      simpa using h
                    refine ⟨attempt, oreq, content.drop pos, by simp, hr, ?_⟩
                    intro b o2 d2 hb
                    simp [List.mem_cons] at hb
                    rcases hb with ⟨rfl, -, -⟩ | hb
                    · exact le_rfl
                    · exact absurd hb (not_mem_invoke_of_closes hd b o2 d2)
                  · exact absurd h (by simp)
                  · exact absurd h (by simp)
                  · exact absurd h (not_mem_deliver_of_closes hd resp)
              | false =>
                  cases h4 : env.seekOk attempt with
                  | false =>
                      rw [serveLoop_seek_fail s env req wH content totalSize f attempt pos oreq
                        defers h1 h2 h3 h4] at hm
                      simp [List.mem_cons] at hm
                      exact absurd hm (not_mem_deliver_of_closes hd resp)
                  | true =>
                      rw [serveLoop_retry s env req wH content totalSize f attempt pos oreq
                        defers h1 h2 h3 h4] at hm
                      rw [serveLoop_retry s env req wH content totalSize f attempt pos oreq
                        defers h1 h2 h3 h4]
                      simp only [List.mem_cons] at hm
                      rcases hm with h | h | h | h
                      · exact absurd h (by simp)
                      · exact absurd h (by simp)
                      · exact absurd h (by simp)
                      · obtain ⟨a, o, d, hmem, heq, hmax⟩ := ih (attempt + 1) 0
                          (copyRequest req content totalSize)
                          (Event.closeReader attempt :: Event.closeCapture attempt :: defers)
                          (closes_cons2 hd attempt) resp h
                        have hage : attempt + 1 ≤ a :=
                          serveLoop_invoke_ge s env req wH content totalSize f (attempt + 1) 0
                            (copyRequest req content totalSize)
                            (Event.closeReader attempt :: Event.closeCapture attempt :: defers)
                            (closes_cons2 hd attempt) a o d hmem
                        refine ⟨a, o, d, by simp [hmem], heq, ?_⟩
                        intro b o2 d2 hb
                        simp only [List.mem_cons] at hb
                        rcases hb with hb | hb | hb | hb
                        · exact absurd hb (by simp)
                        · obtain ⟨rfl, -, -⟩ := by simpa using hb
                          omega
                        · exact absurd hb (by simp)
                        · exact hmax b o2 d2 hb

/- Branch equations for `serveHTTP`. -/

theorem closesBody : ∀ e ∈ [Event.closeBody], isClose e = true := by
  intro e he
  simp only [List.mem_singleton] at he
  subst he
  rfl

theorem serveHTTP_limit (s : Streamer) (env : Env) (req : Request) (wH : Headers)
    (e : Err) (hcl : checkLimit s req = some e) :
    serveHTTP s env req wH =
      ([Event.errorOut (mkErrResp s wH e)], mkErrResp s wH e) := by
  simp [serveHTTP, hcl]

theorem serveHTTP_newErr (s : Streamer) (env : Env) (req : Request) (wH : Headers)
    (e : Err) (hcl : checkLimit s req = none) (hne : env.newErr = some e) :
    serveHTTP s env req wH =
      ([Event.readBody, Event.errorOut (mkErrResp s wH e)], mkErrResp s wH e) := by
  simp [serveHTTP, hcl, hne]

theorem serveHTTP_sizeFail (s : Streamer) (env : Env) (req : Request) (wH : Headers)
    (hcl : checkLimit s req = none) (hne : env.newErr = none)
    (hs : env.sizeOk = false) :
    serveHTTP s env req wH =
      ([Event.readBody, Event.errorOut (mkErrResp s wH Err.other), Event.closeBody],
        mkErrResp s wH Err.other) := by
  simp [serveHTTP, hcl, hne, hs]

theorem serveHTTP_main (s : Streamer) (env : Env) (req : Request) (wH : Headers)
    (hcl : checkLimit s req = none) (hne : env.newErr = none)
    (hs : env.sizeOk = true) :
    serveHTTP s env req wH =
      (Event.readBody ::
          (serveLoop s env req wH req.body (req.body.length : Int)
            (DefaultMaxRetryAttempts + 1) 1 0
            (copyRequest req req.body (req.body.length : Int)) [Event.closeBody]).1,
        (serveLoop s env req wH req.body (req.body.length : Int)
          (DefaultMaxRetryAttempts + 1) 1 0
          (copyRequest req req.body (req.body.length : Int)) [Event.closeBody]).2) := by
  simp [serveHTTP, hcl, hne, hs]

/-- Faithfulness of the fuelled loop: no run of `serveHTTP` ever reaches
the out-of-fuel branch — the source's retry guard always returns first, so
the fuel argument is not load-bearing. -/
theorem serveHTTP_no_fuelOut (s : Streamer) (env : Env) (req : Request) (wH : Headers) :
    Event.fuelOut ∉ (serveHTTP s env req wH).1 := by
  cases hcl : checkLimit s req with
  | some e => rw [serveHTTP_limit s env req wH e hcl]; simp
  | none =>
      cases hne : env.newErr with
      | some e => rw [serveHTTP_newErr s env req wH e hcl hne]; simp
      | none =>
          cases hs : env.sizeOk with
          | false => rw [serveHTTP_sizeFail s env req wH hcl hne hs]; simp
          | true =>
              rw [serveHTTP_main s env req wH hcl hne hs]
              intro hm
              simp only [List.mem_cons] at hm
              rcases hm with h | h
              · exact absurd h (by simp)
              · exact serveLoop_no_fuelOut s env req wH req.body (req.body.length : Int)
                  (DefaultMaxRetryAttempts + 1) 1 0
                  (copyRequest req req.body (req.body.length : Int)) [Event.closeBody]
                  closesBody (by omega) (by omega) h

/-- Claim C1, counterexample: with an always-true retry predicate and a
handler that always answers 502, one inbound request produces 11 handler
invocations — the guard `attempt > DefaultMaxRetryAttempts` is only
checked after the dispatch, so attempt 11 is still dispatched.  This
refutes "total attempts at most the fixed internal ceiling of 10". -/
theorem C1_counterexample :
    countInvokes (serveHTTP s1 env0 req0 []).1 = DefaultMaxRetryAttempts + 1 ∧
    ¬ countInvokes (serveHTTP s1 env0 req0 []).1 ≤ DefaultMaxRetryAttempts := by
  exact ⟨by decide, by decide⟩

/-- Claim C1, amended: for every inbound request handled by
`Streamer.ServeHTTP`, the total number of invocations of the wrapped
handler is at most `DefaultMaxRetryAttempts + 1 = 11`, regardless of the
outcome of any configured retry predicate: the retry guard finalizes every
attempt numbered above the ceiling, so the 11th dispatch is never
followed by another. -/
theorem C1_amended (s : Streamer) (env : Env) (req : Request) (wH : Headers) :
    countInvokes (serveHTTP s env req wH).1 ≤ DefaultMaxRetryAttempts + 1 := by
  cases hcl : checkLimit s req with
  | some e =>
      rw [serveHTTP_limit s env req wH e hcl]
      simp [countInvokes, isInvoke]
  | none =>
      cases hne : env.newErr with
      | some e =>
          rw [serveHTTP_newErr s env req wH e hcl hne]
          simp [countInvokes, isInvoke]
      | none =>
          cases hs : env.sizeOk with
          | false =>
              rw [serveHTTP_sizeFail s env req wH hcl hne hs]
              simp [countInvokes, isInvoke]
          | true =>
              rw [serveHTTP_main s env req wH hcl hne hs]
              rw [countInvokes_cons]
              have hle := serveLoop_countInvokes_le s env req wH req.body
                (req.body.length : Int) (DefaultMaxRetryAttempts + 1) 1 0
                (copyRequest req req.body (req.body.length : Int)) [Event.closeBody]
                closesBody
              simp [isInvoke]
              omega

/-- Claim C2: replay idempotence.  Every invocation of the wrapped handler
recorded during one `serveHTTP` run — on every attempt — is delivered
exactly the full buffered body bytes (the inbound request's body), through
an envelope whose body is that same buffer and whose content length is the
buffered total size: before every redispatch the buffer is rewound to
offset 0 and a fresh envelope is rebuilt over the same buffer with the
same total size. -/
theorem C2_replay_idempotent (s : Streamer) (env : Env) (req : Request) (wH : Headers)
    (b : Nat) (o : Request) (d : List Nat)
    (hm : Event.invoke b o d ∈ (serveHTTP s env req wH).1) :
    d = req.body ∧ o.body = req.body ∧ o.contentLength = (req.body.length : Int) := by
  cases hcl : checkLimit s req with
  | some e =>
      rw [serveHTTP_limit s env req wH e hcl] at hm
      simp at hm
  | none =>
      cases hne : env.newErr with
      | some e =>
          rw [serveHTTP_newErr s env req wH e hcl hne] at hm
          simp at hm
      | none =>
          cases hs : env.sizeOk with
          | false =>
              rw [serveHTTP_sizeFail s env req wH hcl hne hs] at hm
              simp at hm
          | true =>
              rw [serveHTTP_main s env req wH hcl hne hs] at hm
              simp only [List.mem_cons] at hm
              rcases hm with h | h
              · exact absurd h (by simp)
              · obtain ⟨hb, hc, -, hdl⟩ := serveLoop_invoke_envelope s env req wH req.body
                  (req.body.length : Int) (DefaultMaxRetryAttempts + 1) 1
                  (copyRequest req req.body (req.body.length : Int)) [Event.closeBody]
                  closesBody rfl rfl rfl b o d h
                exact ⟨hdl, hb, hc⟩

/-- Claim C2 witness: in the concrete run of `s2w` on the chunked request
`req2`, attempt 1's invocation is recorded with exactly the buffered
bytes, and the theorem yields the replay-idempotence facts for it. -/
theorem C2_witness :
    Event.invoke 1 (copyRequest req2 [7, 8] 2) [7, 8] ∈ (serveHTTP s2w env0 req2 []).1 ∧
    ([7, 8] = req2.body ∧ (copyRequest req2 [7, 8] 2).body = req2.body ∧
      (copyRequest req2 [7, 8] 2).contentLength = (req2.body.length : Int)) :=
  ⟨by decide, C2_replay_idempotent s2w env0 req2 [] 1 (copyRequest req2 [7, 8] 2) [7, 8]
    (by decide)⟩

/-- Claim C3: when a positive request-size limit is configured and the
declared content length exceeds it (and the error handler is the default
`SizeErrHandler`, the one `New` installs), `serveHTTP` answers status 413
with the standard reason phrase as the body, never invokes the wrapped
handler, and never reads the request body. -/
theorem C3_size_reject (s : Streamer) (env : Env) (req : Request) (wH : Headers)
    (h1 : 0 < s.maxRequestBodyBytes)
    (h2 : s.maxRequestBodyBytes < req.contentLength)
    (h3 : s.errHandler = some SizeErrHandler) :
    serveHTTP s env req wH =
      ([Event.errorOut ⟨413, wH, reasonPhrase413⟩], ⟨413, wH, reasonPhrase413⟩) ∧
    (∀ (b : Nat) (o : Request) (d : List Nat),
      Event.invoke b o d ∉ (serveHTTP s env req wH).1) ∧
    Event.readBody ∉ (serveHTTP s env req wH).1 := by
  have hcl : checkLimit s req = some (Err.maxSizeReached s.maxRequestBodyBytes) := by
    unfold checkLimit
    rw [if_neg (by omega), if_pos (by omega)]
  have hr : mkErrResp s wH (Err.maxSizeReached s.maxRequestBodyBytes) =
      ⟨413, wH, reasonPhrase413⟩ := by
    unfold mkErrResp
    rw [h3]
    rfl
  have hmain := serveHTTP_limit s env req wH (Err.maxSizeReached s.maxRequestBodyBytes) hcl
  rw [hr] at hmain
  refine ⟨hmain, ?_, ?_⟩
  · intro b o d
    rw [hmain]
    simp
  · rw [hmain]
    simp

/-- Claim C3 witness: the 5-byte-limit streamer `sW3` rejects the request
declaring 10 bytes with a bare 413 response. -/
theorem C3_witness :
    0 < sW3.maxRequestBodyBytes ∧ sW3.maxRequestBodyBytes < reqW3.contentLength ∧
    sW3.errHandler = some SizeErrHandler ∧
    serveHTTP sW3 env0 reqW3 [] =
      ([Event.errorOut ⟨413, [], reasonPhrase413⟩], ⟨413, [], reasonPhrase413⟩) :=
  ⟨by decide, by decide, rfl,
    (C3_size_reject sW3 env0 reqW3 [] (by decide) (by decide) rfl).1⟩

/-- Claim C4: every outbound (reframed) request envelope passed to the
wrapped handler, on every attempt, carries a content length equal to the
number of bytes buffered from the inbound body and an empty
transfer-encoding list — for every inbound request, including chunked or
unknown-length ones. -/
theorem C4_reframed (s : Streamer) (env : Env) (req : Request) (wH : Headers)
    (b : Nat) (o : Request) (d : List Nat)
    (hm : Event.invoke b o d ∈ (serveHTTP s env req wH).1) :
    o.contentLength = (req.body.length : Int) ∧ o.transferEncoding = [] := by
  cases hcl : checkLimit s req with
  | some e =>
      rw [serveHTTP_limit s env req wH e hcl] at hm
      simp at hm
  | none =>
      cases hne : env.newErr with
      | some e =>
          rw [serveHTTP_newErr s env req wH e hcl hne] at hm
          simp at hm
      | none =>
          cases hs : env.sizeOk with
          | false =>
              rw [serveHTTP_sizeFail s env req wH hcl hne hs] at hm
              simp at hm
          | true =>
              rw [serveHTTP_main s env req wH hcl hne hs] at hm
              simp only [List.mem_cons] at hm
              rcases hm with h | h
              · exact absurd h (by simp)
              · obtain ⟨-, hc, ht, -⟩ := serveLoop_invoke_envelope s env req wH req.body
                  (req.body.length : Int) (DefaultMaxRetryAttempts + 1) 1
                  (copyRequest req req.body (req.body.length : Int)) [Event.closeBody]
                  closesBody rfl rfl rfl b o d h
                exact ⟨hc, ht⟩

/-- Claim C4 witness: the chunked, unknown-length request `req2` (declared
length -1, transfer encoding "chunked") reaches the handler with content
length 2 (its actual buffered size) and an empty transfer-encoding list. -/
theorem C4_witness :
    Event.invoke 1 (copyRequest req2 [7, 8] 2) [7, 8] ∈ (serveHTTP s2w env0 req2 []).1 ∧
    req2.transferEncoding = ["chunked"] ∧ req2.contentLength = -1 ∧
    ((copyRequest req2 [7, 8] 2).contentLength = (req2.body.length : Int) ∧
      (copyRequest req2 [7, 8] 2).transferEncoding = []) :=
  ⟨by decide, by decide, by decide,
    C4_reframed s2w env0 req2 [] 1 (copyRequest req2 [7, 8] 2) [7, 8] (by decide)⟩

/-- Claim C5: with the retry predicate `Attempts() <= 2 && ResponseCode() == 502`
configured through `New`/`Retry` and a wrapped handler that sets status 502
on every invocation, `serveHTTP` invokes the handler exactly 3 times for
one inbound request and the response delivered to the real client has
status 502. -/
theorem C5_retry_three :
    New h502 [Retry pred502] = Except.ok s5 ∧
    countInvokes (serveHTTP s5 env0 req0 []).1 = 3 ∧
    (serveHTTP s5 env0 req0 []).2.status = 502 :=
  ⟨rfl, by decide, by decide⟩

/-- Claim C6, the code's actual behaviour at the failing input: in the
3-attempt retry run of `s5`, all three per-attempt captures are created —
and the final response is already delivered — before a single capture
close occurs; the closes (all three of them) only happen afterwards, at
function return, because the `defer b.Close()` inside the loop runs at
`ServeHTTP` return, not at the end of the attempt.  So during the retry
sequence as many captures are open as attempts so far, not at most one. -/
theorem C6_captures_stay_open :
    ((serveHTTP s5 env0 req0 []).1.takeWhile
        (fun e => !(isCloseCapture e))).countP isCreateCapture = 3 ∧
    ((serveHTTP s5 env0 req0 []).1.takeWhile
        (fun e => !(isCloseCapture e))).countP isDeliver = 1 ∧
    (serveHTTP s5 env0 req0 []).1.countP isCloseCapture = 3 ∧
    countInvokes (serveHTTP s5 env0 req0 []).1 = 3 := by
  exact ⟨by decide, by decide, by decide, by decide⟩

/-- Claim C7: header fidelity.  Every response delivered by `serveHTTP`
equals the finalize-branch image of the handler output of the last
recorded attempt: its headers are `copyHeaders` of that attempt's
freshly-allocated header map onto the real sink's map — so headers of
retried, discarded attempts never appear — and when the real sink starts
with no headers and the final attempt's map is well-formed (distinct keys,
no empty value lists), the response headers are verbatim that map. -/
theorem C7_header_fidelity (s : Streamer) (env : Env) (req : Request) (wH : Headers)
    (resp : ClientResponse)
    (hm : Event.deliver resp ∈ (serveHTTP s env req wH).1) :
    ∃ a o d,
      Event.invoke a o d ∈ (serveHTTP s env req wH).1 ∧
      (∀ (b : Nat) (o2 : Request) (d2 : List Nat),
        Event.invoke b o2 d2 ∈ (serveHTTP s env req wH).1 → b ≤ a) ∧
      resp.headers = copyHeaders wH (s.next a o).headers ∧
      (wH = [] → (((s.next a o).headers.map Prod.fst).Nodup) →
        (∀ p ∈ (s.next a o).headers, p.2 ≠ []) →
        resp.headers = (s.next a o).headers) := by
  cases hcl : checkLimit s req with
  | some e =>
      rw [serveHTTP_limit s env req wH e hcl] at hm
      simp at hm
  | none =>
      cases hne : env.newErr with
      | some e =>
          rw [serveHTTP_newErr s env req wH e hcl hne] at hm
          simp at hm
      | none =>
          cases hs : env.sizeOk with
          | false =>
              rw [serveHTTP_sizeFail s env req wH hcl hne hs] at hm
              simp at hm
          | true =>
              rw [serveHTTP_main s env req wH hcl hne hs] at hm
              rw [serveHTTP_main s env req wH hcl hne hs]
              simp only [List.mem_cons] at hm
              rcases hm with h | h
              · exact absurd h (by simp)
              · obtain ⟨a, o, d, hmem, heq, hmax⟩ := serveLoop_deliver_char s env req wH
                  req.body (req.body.length : Int) (DefaultMaxRetryAttempts + 1) 1 0
                  (copyRequest req req.body (req.body.length : Int)) [Event.closeBody]
                  closesBody resp h
                refine ⟨a, o, d, by simp [hmem], ?_, ?_, ?_⟩
                · intro b o2 d2 hb
                  simp only [List.mem_cons] at hb
                  rcases hb with hb | hb
                  · exact absurd hb (by simp)
                  · exact hmax b o2 d2 hb
                · rw [heq]
                  rfl
                · intro hwnil hnd hnv
                  rw [heq, hwnil]
                  show copyHeaders [] (s.next a o).headers = (s.next a o).headers
                  exact copyHeaders_nil_id (s.next a o).headers hnd hnv

/-- Claim C7 witness: the run of `s7` delivers exactly the handler's
headers of its (single, hence last) attempt. -/
theorem C7_witness :
    Event.deliver respW7 ∈ (serveHTTP s7 env0 req0 []).1 ∧
    (∃ a o d,
      Event.invoke a o d ∈ (serveHTTP s7 env0 req0 []).1 ∧
      (∀ (b : Nat) (o2 : Request) (d2 : List Nat),
        Event.invoke b o2 d2 ∈ (serveHTTP s7 env0 req0 []).1 → b ≤ a) ∧
      respW7.headers = copyHeaders [] (s7.next a o).headers ∧
      (([] : Headers) = [] → (((s7.next a o).headers.map Prod.fst).Nodup) →
        (∀ p ∈ (s7.next a o).headers, p.2 ≠ []) →
        respW7.headers = (s7.next a o).headers)) :=
  ⟨by decide, C7_header_fidelity s7 env0 req0 [] respW7 (by decide)⟩

/-- Claim C8, counterexample: with a wrapped handler that never calls
`WriteHeader` (captured code stays 0), the status actually written to the
real client is 0, not 200; and a retry predicate `ResponseCode() == 200`
does not fire (one single invocation), showing the retry decision also
observes 0, not 200. -/
theorem C8_counterexample :
    (serveHTTP s8 env0 req0 []).2.status = 0 ∧
    ¬ (serveHTTP s8 env0 req0 []).2.status = 200 ∧
    countInvokes (serveHTTP s8p env0 req0 []).1 = 1 := by
  exact ⟨by decide, by decide, by decide⟩

/-- Claim C8, amended: if the wrapped handler finishes every attempt
without ever calling `WriteHeader` on its response surface, the captured
status stays 0: every response `serveHTTP` delivers carries status 0 —
that 0 is what is passed to the real client's `WriteHeader` and what the
retry decision observes; any "200 OK" defaulting is left to the host HTTP
library's treatment of code 0, it is not produced by this code. -/
theorem C8_amended (s : Streamer) (env : Env) (req : Request) (wH : Headers)
    (resp : ClientResponse)
    (hz : ∀ (a : Nat) (o : Request), (s.next a o).code = 0)
    (hm : Event.deliver resp ∈ (serveHTTP s env req wH).1) :
    resp.status = 0 := by
  cases hcl : checkLimit s req with
  | some e =>
      rw [serveHTTP_limit s env req wH e hcl] at hm
      simp at hm
  | none =>
      cases hne : env.newErr with
      | some e =>
          rw [serveHTTP_newErr s env req wH e hcl hne] at hm
          simp at hm
      | none =>
          cases hs : env.sizeOk with
          | false =>
              rw [serveHTTP_sizeFail s env req wH hcl hne hs] at hm
              simp at hm
          | true =>
              rw [serveHTTP_main s env req wH hcl hne hs] at hm
              simp only [List.mem_cons] at hm
              rcases hm with h | h
              · exact absurd h (by simp)
              · obtain ⟨a, o, d, -, heq, -⟩ := serveLoop_deliver_char s env req wH
                  req.body (req.body.length : Int) (DefaultMaxRetryAttempts + 1) 1 0
                  (copyRequest req req.body (req.body.length : Int)) [Event.closeBody]
                  closesBody resp h
                rw [heq]
                show (s.next a o).code = 0
                exact hz a o

/-- Claim C8 witness: `s8`'s handler never sets a code; the delivered
response's status is 0. -/
theorem C8_witness :
    Event.deliver ⟨0, [], [5]⟩ ∈ (serveHTTP s8 env0 req0 []).1 ∧
    (ClientResponse.mk 0 [] [5]).status = 0 :=
  ⟨by decide, C8_amended s8 env0 req0 [] ⟨0, [], [5]⟩ (fun _ _ => rfl) (by decide)⟩

/-- Claim C9, counterexample: `Wrap` is an exported operation on a
constructed `Streamer` and it does change a field — the wrapped handler.
After `New` returns `s2w` (handler answering 502), `Wrap` replaces the
handler with one answering 0, observably. -/
theorem C9_counterexample :
    New h502 [] = Except.ok s2w ∧
    (s2w.next 1 req0).code = 502 ∧
    ((Wrap s2w h0code).1.next 1 req0).code = 0 ∧
    ¬ (s2w.next 1 req0).code = ((Wrap s2w h0code).1.next 1 req0).code := by
  exact ⟨rfl, by decide, by decide, by decide⟩

/-- Claim C9, amended: no exported operation changes the size limits, the
retry predicate, the error handler or the logger of a constructed
`Streamer`; the one exception forced by the counterexample is the wrapped
handler, which `Wrap` replaces (returning a nil error) while leaving every
other field unchanged. -/
theorem C9_amended (s : Streamer) (next : Handler) :
    (Wrap s next).1.maxRequestBodyBytes = s.maxRequestBodyBytes ∧
    (Wrap s next).1.memRequestBodyBytes = s.memRequestBodyBytes ∧
    (Wrap s next).1.maxResponseBodyBytes = s.maxResponseBodyBytes ∧
    (Wrap s next).1.memResponseBodyBytes = s.memResponseBodyBytes ∧
    (Wrap s next).1.retryPredicate = s.retryPredicate ∧
    (Wrap s next).1.errHandler = s.errHandler ∧
    (Wrap s next).1.log = s.log ∧
    (Wrap s next).1.next = next ∧
    (Wrap s next).2 = none :=
  ⟨rfl, rfl, rfl, rfl, rfl, rfl, rfl, rfl, rfl⟩

theorem applySetters_append (fs gs : List OptSetter) (s : Streamer) :
    applySetters (fs ++ gs) s =
      match applySetters fs s with
      | Except.error e => Except.error e
      | Except.ok s2 => applySetters gs s2 := by
  induction fs generalizing s with
  | nil => rfl
  | cons f t ih =>
      simp only [List.cons_append, applySetters]
      cases hf : f s with
      | error e => rfl
      | ok s2 => exact ih s2

/-- Claim C10: each of the four size-configuration setters returns an
error exactly when its argument is negative (zero is accepted), and `New`
propagates the first failing setter's error, returning no streamer in that
case. -/
theorem C10_setters :
    (∀ (m : Int) (s : Streamer), isErr (MaxRequestBodyBytes m s) = decide (m < 0)) ∧
    (∀ (m : Int) (s : Streamer), isErr (MemRequestBodyBytes m s) = decide (m < 0)) ∧
    (∀ (m : Int) (s : Streamer), isErr (MaxResponseBodyBytes m s) = decide (m < 0)) ∧
    (∀ (m : Int) (s : Streamer), isErr (MemResponseBodyBytes m s) = decide (m < 0)) ∧
    (∀ (next : Handler) (fs : List OptSetter) (f : OptSetter) (gs : List OptSetter)
        (s2 : Streamer) (e : String),
      applySetters fs (initStreamer next) = Except.ok s2 →
      f s2 = Except.error e →
      New next (fs ++ f :: gs) = Except.error e) := by
  refine ⟨?_, ?_, ?_, ?_, ?_⟩
  · intro m s
    by_cases h : m < 0 <;> simp [MaxRequestBodyBytes, isErr, h]
  · intro m s
    by_cases h : m < 0 <;> simp [MemRequestBodyBytes, isErr, h]
  · intro m s
    by_cases h : m < 0 <;> simp [MaxResponseBodyBytes, isErr, h]
  · intro m s
    by_cases h : m < 0 <;> simp [MemResponseBodyBytes, isErr, h]
  · intro next fs f gs s2 e hok hf
    unfold New
    rw [applySetters_append, hok]
    show (match applySetters (f :: gs) s2 with
      | Except.error e2 => Except.error e2
      | Except.ok s3 => Except.ok (fillDefaults s3)) = Except.error e
    show (match (match f s2 with
        | Except.error e2 => Except.error e2
        | Except.ok s3 => applySetters gs s3) with
      | Except.error e2 => Except.error e2
      | Except.ok s3 => Except.ok (fillDefaults s3)) = Except.error e
    rw [hf]

/-- Claim C10 witness: `MaxRequestBodyBytes (-1)` fails and `New`
propagates exactly its message, producing no streamer. -/
theorem C10_witness :
    isErr (MaxRequestBodyBytes (-1) (initStreamer h502)) = decide ((-1 : Int) < 0) ∧
    New h502 [MaxRequestBodyBytes (-1)] =
      Except.error ("max bytes should be >= 0 got " ++ toString (-1 : Int)) :=
  ⟨C10_setters.1 (-1) (initStreamer h502),
    C10_setters.2.2.2.2 h502 [] (MaxRequestBodyBytes (-1)) [] (initStreamer h502)
      ("max bytes should be >= 0 got " ++ toString (-1 : Int)) rfl rfl⟩

end OxyStream
